import Mathlib

/-!
Verification of the learning-object wrapper (`wrapper.js`, `contentPlugins.js`).

The JavaScript source is shallowly embedded: pure functions become Lean
functions over `String` / `List Char` / `Int`, DOM and browser inputs
(resolved URL hostname, media queries, element measurements, fetch results)
become explicit parameters, and the stateful resize negotiator becomes a
state-passing function on an explicit record.
-/

namespace LOWrapper

/-- Boolean test that `pat` occurs at the start of `s` (character lists). -/
def isPre : List Char → List Char → Bool
  | [], _ => true
  | _ :: _, [] => false
  | a :: as, b :: bs => a == b && isPre as bs

/-- Boolean substring test on character lists, mirroring JavaScript
`String.prototype.includes`. -/
def hasSub (pat : List Char) : List Char → Bool
  | [] => isPre pat []
  | b :: bs => isPre pat (b :: bs) || hasSub pat bs

/-- JavaScript `s.includes(pat)` on Lean strings. -/
def strIncludes (s pat : String) : Bool :=
  hasSub pat.toList s.toList

/-- One step of scanning for the segment after the last dot: a dot resets
the accumulator, any other character extends it. -/
def segStep (acc : List Char) (c : Char) : List Char :=
  if c == '.' then [] else acc ++ [c]

/-- JavaScript `src.split('.').pop()`: the segment after the last dot
(the whole string when there is no dot). -/
def lastSeg (l : List Char) : List Char :=
  l.foldl segStep []

/-- The lower-cased extension `src.split('.').pop().toLowerCase()`
computed by `detectType` in `contentPlugins.js`. -/
def extOf (src : String) : String :=
  ⟨(lastSeg src.toList).map Char.toLower⟩

/-- Video extensions checked by `detectType` (`contentPlugins.js` line 58). -/
def videoExts : List String := ["mp4", "webm", "ogg", "mov", "avi"]

/-- 3D-model extensions checked by `detectType` (`contentPlugins.js` line 63). -/
def modelExts : List String := ["glb", "gltf", "obj", "fbx", "3ds"]

/-- `contentPlugins.detectType` from `contentPlugins.js` lines 48-91.
The browser resolves `new URL(src, window.location.href)`; the resolved
URL's hostname is passed explicitly as `hostname`.  The source returns
`'iframe'` for a falsy `src` and otherwise classifies by hostname markers
and the lower-cased final dot-segment, in source order: video, model,
pdf, supersplat (ply), h5p, iframe. -/
def detectType (hostname src : String) : String :=
  if src == "" then "iframe"
  else
    let ext := extOf src
    if strIncludes hostname "youtube.com" || strIncludes hostname "vimeo.com"
        || videoExts.contains ext then "video"
    else if modelExts.contains ext then "model"
    else if ext == "pdf" then "pdf"
    else if ext == "ply" then "supersplat"
    else if strIncludes hostname "h5p.org" || strIncludes src "/h5p/"
        || strIncludes src "h5p" then "h5p"
    else "iframe"

/-- The value `detectType` computes on any `src` whose extension is
recognized (one of the video, model, pdf or ply extensions): only the
hostname markers and the extension matter, because every such input is
classified before the h5p / iframe branches are reached. -/
def classifyExt (hostname ext : String) : String :=
  if strIncludes hostname "youtube.com" || strIncludes hostname "vimeo.com"
      || videoExts.contains ext then "video"
  else if modelExts.contains ext then "model"
  else if ext == "pdf" then "pdf"
  else "supersplat"

/-- The resize negotiator's mutable state in `wrapper.js`
(`this.state.lastHeight`, `this.state.lastWidth`). -/
structure ResizeState where
  lastHeight : Int
  lastWidth : Int
deriving DecidableEq, Repr

/-- An outbound cross-frame message posted by the wrapper
(`{subject: 'lti.frameResize', height}`). -/
structure FrameMsg where
  subject : String
  height : Int
deriving DecidableEq, Repr

/-- `sendResizeMessage` from `wrapper.js` lines 261-279.  `inFrame` is the
`window.parent !== window` check; `height` is the `getContentHeight()`
measurement and `width` is `window.innerWidth`.  Returns the updated state
together with the list of messages posted to the parent frame. -/
def sendResizeMessage (inFrame : Bool) (st : ResizeState) (height width : Int) :
    ResizeState × List FrameMsg :=
  if !inFrame then (st, [])
  else if 1 < (height - st.lastHeight).natAbs ∨ width ≠ st.lastWidth then
    ({ lastHeight := height, lastWidth := width }, [{ subject := "lti.frameResize", height := height }])
  else (st, [])

/-- `forceResize` from `wrapper.js` lines 301-328 (the DOM reflow toggle is
display-only and does not touch the resize state; the measurement taken
after it is passed in as `height`/`width`).  Always posts, then stores the
just-measured values. -/
def forceResize (inFrame : Bool) (st : ResizeState) (height width : Int) :
    ResizeState × List FrameMsg :=
  if !inFrame then (st, [])
  else
    ({ lastHeight := height, lastWidth := width }, [{ subject := "lti.frameResize", height := height }])

/-- The document-measurement fallback of `getContentHeight` (`wrapper.js`
lines 244-255): filter the three whole-document heights down to the
positive ones; minimum if any, else `bodyScrollHeight || 400` (JavaScript
falsiness: `0` is the only falsy `Int`).  The three `Int` arguments are
`document.body.scrollHeight`, `document.body.offsetHeight` and
`document.documentElement.offsetHeight`. -/
def docHeightFallback (bodyScrollHeight bodyOffsetHeight docOffsetHeight : Int) : Int :=
  match [bodyScrollHeight, bodyOffsetHeight, docOffsetHeight].filter (fun h => decide (0 < h)) with
  | [] => if bodyScrollHeight ≠ 0 then bodyScrollHeight else 400
  | h :: t => t.foldl min h

/-- `getContentHeight` from `wrapper.js` lines 233-256.  `containerRect?`
is `querySelector('.lo-wrapper')?.getBoundingClientRect().height` (a
non-negative float, modelled as `ℚ`; `none` when the element is absent):
when positive its ceiling is returned, otherwise the document fallback. -/
def getContentHeight (containerRect? : Option ℚ)
    (bodyScrollHeight bodyOffsetHeight docOffsetHeight : Int) : Int :=
  match containerRect? with
  | some ch =>
    if 0 < ch then ⌈ch⌉
    else docHeightFallback bodyScrollHeight bodyOffsetHeight docOffsetHeight
  | none => docHeightFallback bodyScrollHeight bodyOffsetHeight docOffsetHeight

/-- `detectTheme` from `wrapper.js` lines 123-141.  `configTheme` is
`this.config.theme` (the empty string standing for a missing/falsy value);
the two booleans are the results of the `(prefers-contrast: high)` and
`(prefers-color-scheme: dark)` media queries. -/
def detectTheme (configTheme : String) (contrastHigh prefersDark : Bool) : String :=
  if configTheme != "" && configTheme != "auto" then configTheme
  else if contrastHigh then "high-contrast"
  else if prefersDark then "dark"
  else "light"

/-- One step of `debouncedResize` (`wrapper.js` lines 284-289) and the final
timer flush, driven by a sorted list of call times: state is the single
pending timer deadline (`this.state.resizeTimer`).  Handling a call at time
`t` first lets an already-elapsed pending timer fire (recording its firing
time, i.e. one `sendResizeMessage` cycle), then `clearTimeout`s any pending
timer and schedules a fresh one at `t + 100`.  After the last call the
remaining pending timer fires. -/
def debounceRun (pending : Option Int) : List Int → List Int
  | [] =>
    match pending with
    | some d => [d]
    | none => []
  | t :: rest =>
    match pending with
    | some d =>
      if d ≤ t then d :: debounceRun (some (t + 100)) rest
      else debounceRun (some (t + 100)) rest
    | none => debounceRun (some (t + 100)) rest

/-- Boolean test that a list of call times is ascending with every
consecutive gap strictly inside the 100ms quiet window. -/
def withinQuiet : List Int → Bool
  | [] => true
  | [_] => true
  | a :: b :: rest => a ≤ b && b - a < 100 && withinQuiet (b :: rest)

/-- A transcript entry from the manifest (`{language, url, default}`). -/
structure Transcript where
  language : String
  url : String
  default : Bool
deriving DecidableEq, Repr

/-- An attribution entry from the manifest (opaque to the merge logic). -/
structure Attribution where
  payload : String
deriving DecidableEq, Repr

/-- The wrapper configuration fields touched by `loadManifest`
(`wrapper.js`).  `none` stands for a JavaScript `undefined` / absent field;
`title` uses `""` as its falsy default (constructor line 16).  `src` is the
content source handed to the constructor (from URL parameters); the
constructor defaults `type` to `'auto'` (line 15). -/
structure Config where
  title : String
  type : Option String
  src : Option String
  transcripts : Option (List Transcript)
  attribution : Option Attribution
deriving DecidableEq, Repr

/-- Manifest JSON fields consumed by `loadManifest`
(`{title, type, src, transcripts, attribution}`). -/
structure Manifest where
  title : Option String
  type : Option String
  src : Option String
  transcripts : Option (List Transcript)
  attribution : Option Attribution
deriving DecidableEq, Repr

/-- The configuration update performed by `loadManifest` on a successfully
fetched and parsed manifest (`wrapper.js` lines 423-451):
`title = title || manifest.title`, `type = type === 'auto' ? manifest.type
: type`, transcripts and attribution copied when present.  The manifest's
`src` is never read. -/
def mergeManifest (cfg : Config) (m : Manifest) : Config :=
  { cfg with
    title := if cfg.title != "" then cfg.title else m.title.getD cfg.title
    type := if cfg.type == some "auto" then m.type else cfg.type
    transcripts := match m.transcripts with
      | some ts => some ts
      | none => cfg.transcripts
    attribution := match m.attribution with
      | some a => some a
      | none => cfg.attribution }

/-- Outcome of `fetch(manifestUrl)` + `response.json()` as observed by
`loadManifest`: a parsed manifest, an HTTP error (`!response.ok`, line 417),
a JSON parse failure (`response.json()` rejecting), or a network failure
(`fetch` rejecting). -/
inductive FetchResult where
  | ok (m : Manifest)
  | httpError (statusText : String)
  | jsonError
  | netError
deriving DecidableEq, Repr

/-- The `try` body of `loadManifest` (`wrapper.js` lines 415-452): any of
the three failure shapes throws before the configuration is touched; a
parsed manifest is merged into the configuration. -/
def loadManifestBody (cfg : Config) (r : FetchResult) : Except String Config :=
  match r with
  | .ok m => .ok (mergeManifest cfg m)
  | .httpError st => .error ("Failed to load manifest: " ++ st)
  | .jsonError => .error "manifest JSON parse error"
  | .netError => .error "network error"

/-- `loadManifest` (`wrapper.js` lines 414-456): the `try/catch` wrapper —
a thrown failure is caught (logged at warning level, line 454) and the
configuration is returned unchanged; nothing propagates to the caller. -/
def loadManifest (cfg : Config) (r : FetchResult) : Config :=
  match loadManifestBody cfg r with
  | .ok c => c
  | .error _ => cfg

/-- `loadDefaultTranscript`'s selection (`wrapper.js` line 718):
`transcripts.find(t => t.default) || transcripts[0]`. -/
def defaultTranscript (ts : List Transcript) : Option Transcript :=
  match ts.find? (fun t => t.default) with
  | some t => some t
  | none => ts.head?

/-- The transcript entry whose URL the initial load fetches:
`loadDefaultTranscript` picks an entry and then `loadTranscript(language)`
(line 730) re-finds the first entry with that language. -/
def initialTranscript (ts : List Transcript) : Option Transcript :=
  match defaultTranscript ts with
  | some t => ts.find? (fun u => u.language == t.language)
  | none => none

end LOWrapper

namespace LOWrapper

/-- Claim C3: with the document embedded in a frame, `sendResizeMessage`
posts a resize message if and only if the new height differs from the
stored height by more than 1 or the new width differs at all from the
stored width; and an immediately repeated call with the identical
measurements posts nothing, so two consecutive identical calls post at
most one message in total. -/
theorem sendResizeMessage_threshold (st : ResizeState) (h w : Int) :
    ((sendResizeMessage true st h w).2 ≠ [] ↔
      1 < |h - st.lastHeight| ∨ w ≠ st.lastWidth)
    ∧ (sendResizeMessage true (sendResizeMessage true st h w).1 h w).2 = []
    ∧ (sendResizeMessage true st h w).2.length
        + (sendResizeMessage true (sendResizeMessage true st h w).1 h w).2.length ≤ 1 := by
  have habs : (1 < |h - st.lastHeight|) ↔ (1 < (h - st.lastHeight).natAbs) := by
    rw [Int.abs_eq_natAbs]
    exact_mod_cast Iff.rfl
  by_cases hc : 1 < (h - st.lastHeight).natAbs ∨ w ≠ st.lastWidth
  · have h1 : sendResizeMessage true st h w
        = ({ lastHeight := h, lastWidth := w },
           [{ subject := "lti.frameResize", height := h }]) := by
      simp [sendResizeMessage, hc]
    rw [h1]
    refine ⟨⟨fun _ => Or.imp habs.mpr id hc, fun _ => by simp⟩, ?_, ?_⟩
    · simp [sendResizeMessage]
    · simp [sendResizeMessage]
  · have h1 : sendResizeMessage true st h w = (st, []) := by
      simp only [sendResizeMessage, Bool.not_true, Bool.false_eq_true, if_false]
      rw [if_neg hc]
    rw [h1]
    refine ⟨⟨fun hne => absurd rfl hne, fun hor => absurd (Or.imp habs.mp id hor) hc⟩, ?_, ?_⟩
    · rw [h1]
    · rw [h1]; simp

/-- Claim C9: with the document embedded in a frame, `forceResize` posts a
resize message unconditionally — whatever the stored `lastHeight` /
`lastWidth` are and whether or not the change threshold would be met — and
afterwards stores the just-measured height and width. -/
theorem forceResize_always_sends (st : ResizeState) (h w : Int) :
    (forceResize true st h w).2 = [{ subject := "lti.frameResize", height := h }]
    ∧ (forceResize true st h w).1 = { lastHeight := h, lastWidth := w } :=
  ⟨rfl, rfl⟩

/-- Claim C7: `detectTheme` is a strict priority chain, first match wins: a
truthy configuration theme other than `'auto'` is returned as-is;
otherwise a matching high-contrast media query yields `'high-contrast'`;
otherwise a matching dark-color-scheme media query yields `'dark'`;
otherwise `'light'`. -/
theorem detectTheme_priority (t : String) (hc pd : Bool) :
    (t ≠ "" → t ≠ "auto" → detectTheme t hc pd = t)
    ∧ ((t = "" ∨ t = "auto") → hc = true → detectTheme t hc pd = "high-contrast")
    ∧ ((t = "" ∨ t = "auto") → hc = false → pd = true → detectTheme t hc pd = "dark")
    ∧ ((t = "" ∨ t = "auto") → hc = false → pd = false → detectTheme t hc pd = "light") := by
  refine ⟨fun h1 h2 => ?_, fun ht hhc => ?_, fun ht hhc hpd => ?_, fun ht hhc hpd => ?_⟩
  · simp [detectTheme, h1, h2]
  · rcases ht with ht | ht <;> simp [detectTheme, ht, hhc]
  · rcases ht with ht | ht <;> simp [detectTheme, ht, hhc, hpd]
  · rcases ht with ht | ht <;> simp [detectTheme, ht, hhc, hpd]

/-- Witness for C7: each level of the priority chain at concrete inputs. -/
theorem detectTheme_priority_witness :
    detectTheme "dark" true true = "dark"
    ∧ detectTheme "auto" true true = "high-contrast"
    ∧ detectTheme "" false true = "dark"
    ∧ detectTheme "auto" false false = "light" :=
  ⟨(detectTheme_priority "dark" true true).1 (by decide) (by decide),
   (detectTheme_priority "auto" true true).2.1 (Or.inr rfl) rfl,
   (detectTheme_priority "" false true).2.2.1 (Or.inl rfl) rfl rfl,
   (detectTheme_priority "auto" false false).2.2.2 (Or.inr rfl) rfl rfl⟩

/-- Claim C4: when the manifest fetch fails in any of its failure shapes —
an HTTP error status, malformed JSON, or a network failure — the `try`
body of `loadManifest` does throw, the surrounding `catch` absorbs it (the
total function `loadManifest` returns normally), and the previously
resolved configuration is returned entirely unchanged. -/
theorem loadManifest_failure_atomic (cfg : Config) (r : FetchResult)
    (hr : ∀ m, r ≠ FetchResult.ok m) :
    (∃ e, loadManifestBody cfg r = Except.error e) ∧ loadManifest cfg r = cfg := by
  cases r with
  | ok m => exact absurd rfl (hr m)
  | httpError st => exact ⟨⟨_, rfl⟩, rfl⟩
  | jsonError => exact ⟨⟨_, rfl⟩, rfl⟩
  | netError => exact ⟨⟨_, rfl⟩, rfl⟩

/-- Witness for C4: a malformed-JSON fetch outcome against a URL-derived
configuration leaves that configuration intact. -/
theorem loadManifest_failure_atomic_witness :
    (∃ e, loadManifestBody ⟨"", some "auto", some "b.mp4", none, none⟩ FetchResult.jsonError
      = Except.error e)
    ∧ loadManifest ⟨"", some "auto", some "b.mp4", none, none⟩ FetchResult.jsonError
      = ⟨"", some "auto", some "b.mp4", none, none⟩ :=
  loadManifest_failure_atomic ⟨"", some "auto", some "b.mp4", none, none⟩ FetchResult.jsonError
    (fun _ h => FetchResult.noConfusion h)

/-- Claim C1 (code evaluated at the failing input): with a URL-parameter
configuration `src="b.mp4"` (type defaulted to `'auto'`) and a manifest
carrying `src="a.mp4", type="video"`, `loadManifest` resolves `type` to
`"video"` but leaves `src` as `"b.mp4"` — the manifest's `src` is never
applied, so the documented protected-field rule does not hold in the code.
Moreover a non-auto URL `type` overrides the manifest's `type`. -/
theorem loadManifest_src_not_protected :
    (loadManifest ⟨"", some "auto", some "b.mp4", none, none⟩
        (FetchResult.ok ⟨none, some "video", some "a.mp4", none, none⟩)).src = some "b.mp4"
    ∧ (loadManifest ⟨"", some "auto", some "b.mp4", none, none⟩
        (FetchResult.ok ⟨none, some "video", some "a.mp4", none, none⟩)).src ≠ some "a.mp4"
    ∧ (loadManifest ⟨"", some "auto", some "b.mp4", none, none⟩
        (FetchResult.ok ⟨none, some "video", some "a.mp4", none, none⟩)).type = some "video"
    ∧ (loadManifest ⟨"", some "pdf", some "b.mp4", none, none⟩
        (FetchResult.ok ⟨none, some "video", some "a.mp4", none, none⟩)).type = some "pdf" := by
  refine ⟨rfl, ?_, rfl, rfl⟩
  decide

/-- The running fold of `min` stays inside the list it folds over. -/
theorem foldl_min_mem (t : List Int) (h : Int) : t.foldl min h ∈ h :: t := by
  induction t generalizing h with
  | nil => simp
  | cons a t' ih =>
    have := ih (min h a)
    rcases min_choice h a with hm | hm <;>
      · rw [List.foldl_cons]
        rcases List.mem_cons.mp this with he | he
        · rw [he, hm]; simp
        · simp [he]

/-- The running fold of `min` is a lower bound of everything it folds over. -/
theorem foldl_min_le (t : List Int) (h : Int) : ∀ x ∈ h :: t, t.foldl min h ≤ x := by
  induction t generalizing h with
  | nil => simp
  | cons a t' ih =>
    intro x hx
    rw [List.foldl_cons]
    have hmin : t'.foldl min (min h a) ≤ min h a := ih (min h a) (min h a) (by simp)
    rcases List.mem_cons.mp hx with he | hx'
    · subst he
      exact le_trans hmin (min_le_left _ _)
    · rcases List.mem_cons.mp hx' with he | hx''
      · subst he
        exact le_trans hmin (min_le_right _ _)
      · exact ih (min h a) x (List.mem_cons.mpr (Or.inr hx''))

/-- Characterization of the document-measurement fallback: when some
measurement is positive it returns the least positive one; when the first
is zero and the others non-positive it returns 400. -/
theorem docHeightFallback_spec (a b c : Int) :
    ((0 < a ∨ 0 < b ∨ 0 < c) →
      docHeightFallback a b c ∈ ([a, b, c] : List Int)
      ∧ 0 < docHeightFallback a b c
      ∧ ∀ x ∈ ([a, b, c] : List Int), 0 < x → docHeightFallback a b c ≤ x)
    ∧ (a = 0 → b ≤ 0 → c ≤ 0 → docHeightFallback a b c = 400) := by
  constructor
  · intro hpos
    cases hl : ([a, b, c] : List Int).filter (fun h => decide (0 < h)) with
    | nil =>
      exfalso
      have hmem : ∀ x ∈ ([a, b, c] : List Int), ¬ (0 < x) := by
        intro x hx hlt
        have : x ∈ ([a, b, c] : List Int).filter (fun h => decide (0 < h)) :=
          List.mem_filter.mpr ⟨hx, by simpa using hlt⟩
        rw [hl] at this
        cases this
      rcases hpos with hp | hp | hp
      · exact hmem a (by simp) hp
      · exact hmem b (by simp) hp
      · exact hmem c (by simp) hp
    | cons h t =>
      have hdf : docHeightFallback a b c = t.foldl min h := by
        simp only [docHeightFallback, hl]
      have hmem : docHeightFallback a b c
          ∈ ([a, b, c] : List Int).filter (fun h => decide (0 < h)) := by
        rw [hdf, hl]
        exact foldl_min_mem t h
      have hmem' := List.mem_filter.mp hmem
      refine ⟨hmem'.1, by simpa using hmem'.2, ?_⟩
      intro x hx hxpos
      have hxf : x ∈ ([a, b, c] : List Int).filter (fun h => decide (0 < h)) :=
        List.mem_filter.mpr ⟨hx, by simpa using hxpos⟩
      rw [hl] at hxf
      rw [hdf]
      exact foldl_min_le t h x hxf
  · intro ha hb hc
    subst ha
    simp [docHeightFallback, not_lt.mpr hb, not_lt.mpr hc]

/-- Claim C5: `getContentHeight` returns the ceiling of the wrapper root's
bounding-rectangle height whenever that height is positive; otherwise it
returns the least of the positive whole-document measurements; and when
all three document measurements are non-positive (hence, DOM heights
being non-negative, zero) it returns the fixed fallback 400. -/
theorem getContentHeight_spec (ch : ℚ) (bsh boh doh : Int)
    (hb : 0 ≤ bsh) (_ho : 0 ≤ boh) (_hd : 0 ≤ doh) :
    (0 < ch → getContentHeight (some ch) bsh boh doh = ⌈ch⌉)
    ∧ (ch ≤ 0 → (0 < bsh ∨ 0 < boh ∨ 0 < doh) →
        getContentHeight (some ch) bsh boh doh ∈ ([bsh, boh, doh] : List Int)
        ∧ 0 < getContentHeight (some ch) bsh boh doh
        ∧ ∀ x ∈ ([bsh, boh, doh] : List Int), 0 < x →
            getContentHeight (some ch) bsh boh doh ≤ x)
    ∧ (ch ≤ 0 → bsh ≤ 0 → boh ≤ 0 → doh ≤ 0 →
        getContentHeight (some ch) bsh boh doh = 400) := by
  have hgc : ch ≤ 0 →
      getContentHeight (some ch) bsh boh doh = docHeightFallback bsh boh doh := by
    intro hch
    simp [getContentHeight, not_lt.mpr hch]
  refine ⟨fun hch => by simp [getContentHeight, hch], fun hch hpos => ?_,
    fun hch hb0 ho0 hd0 => ?_⟩
  · rw [hgc hch]
    exact (docHeightFallback_spec bsh boh doh).1 hpos
  · rw [hgc hch]
    exact (docHeightFallback_spec bsh boh doh).2 (le_antisymm hb0 hb) ho0 hd0

/-- Witness for C5: the container branch at a concrete positive rectangle
height, and the all-zero-measurement fallback to 400. -/
theorem getContentHeight_spec_witness :
    getContentHeight (some (5 : ℚ)) 30 20 10 = ⌈(5 : ℚ)⌉
    ∧ getContentHeight (some (0 : ℚ)) 0 0 0 = 400 :=
  ⟨(getContentHeight_spec 5 30 20 10 (by decide) (by decide) (by decide)).1 (by decide),
   (getContentHeight_spec 0 0 0 0 (by decide) (by decide) (by decide)).2.2
     (by decide) (by decide) (by decide) (by decide)⟩

/-- Within a quiet burst, a pending timer at `t + 100` never fires before
the next call, so the single pending deadline just slides to the end of
the burst and fires once, 100ms after the last call. -/
theorem debounceRun_pending_quiet (ts : List Int) : ∀ t, withinQuiet (t :: ts) = true →
    debounceRun (some (t + 100)) ts = [(t :: ts).getLastD 0 + 100] := by
  induction ts with
  | nil => intro t _; rfl
  | cons t' rest ih =>
    intro t hq
    have h1 : t ≤ t' ∧ t' - t < 100 ∧ withinQuiet (t' :: rest) = true := by
      simpa [withinQuiet, and_assoc] using hq
    have hnf : ¬ (t + 100 ≤ t') := by omega
    simp only [debounceRun, if_neg hnf]
    rw [ih t' h1.2.2]
    simp [List.getLastD_cons]

/-- Claim C6: a burst of one or more `debouncedResize` calls whose
consecutive gaps all lie strictly inside the 100ms quiet window executes
exactly one measurement-and-send cycle, firing once 100ms after the last
call of the burst; at most one timer is ever pending (the state is a
single optional deadline) and each call cancels and restarts it. -/
theorem debouncedResize_coalesces (calls : List Int) (hne : calls ≠ [])
    (hq : withinQuiet calls = true) :
    debounceRun none calls = [calls.getLastD 0 + 100]
    ∧ (debounceRun none calls).length = 1 := by
  match calls, hne with
  | t :: ts, _ =>
    have h1 : debounceRun none (t :: ts) = debounceRun (some (t + 100)) ts := rfl
    rw [h1, debounceRun_pending_quiet ts t hq]
    exact ⟨rfl, rfl⟩

/-- Witness for C6: three calls at 0ms, 50ms and 120ms (gaps 50 and 70)
coalesce into a single fire. -/
theorem debouncedResize_coalesces_witness :
    debounceRun none [0, 50, 120] = [([0, 50, 120] : List Int).getLastD 0 + 100]
    ∧ (debounceRun none ([0, 50, 120] : List Int)).length = 1 :=
  debouncedResize_coalesces [0, 50, 120] (by decide) (by decide)

/-- Among transcripts with pairwise distinct languages, searching by the
language of a member finds exactly that member. -/
theorem find?_language_self (ts : List Transcript) (t : Transcript)
    (hnd : (ts.map (fun u => u.language)).Nodup) (hmem : t ∈ ts) :
    ts.find? (fun u => u.language == t.language) = some t := by
  induction ts with
  | nil => cases hmem
  | cons u us ih =>
    have hnd' : (us.map (fun v => v.language)).Nodup ∧
        u.language ∉ us.map (fun v => v.language) := by
      rw [List.map_cons, List.nodup_cons] at hnd
      exact ⟨hnd.2, hnd.1⟩
    rcases List.mem_cons.mp hmem with rfl | hmem'
    · simp [List.find?]
    · have hne : (u.language == t.language) = false := by
        refine beq_eq_false_iff_ne.mpr fun he => hnd'.2 ?_
        exact he ▸ List.mem_map_of_mem (fun v => v.language) hmem'
      simp only [List.find?, hne]
      exact ih hnd'.1 hmem'

/-- Claim C8 (amended): with transcript languages unique per list, the
entry used for the initial transcript load is the FIRST default-marked
entry; when no entry is marked default, the first entry of the list is
used. -/
theorem initialTranscript_first_default (ts : List Transcript)
    (hnd : (ts.map (fun t => t.language)).Nodup) :
    (∀ t, ts.find? (fun u => u.default) = some t → initialTranscript ts = some t)
    ∧ (ts.find? (fun u => u.default) = none → initialTranscript ts = ts.head?) := by
  constructor
  · intro t hf
    have hmem : t ∈ ts := List.mem_of_find?_eq_some hf
    simp [initialTranscript, defaultTranscript, hf, find?_language_self ts t hnd hmem]
  · intro hf
    cases ts with
    | nil => rfl
    | cons u us =>
      have hdt : defaultTranscript (u :: us) = some u := by
        simp [defaultTranscript, hf]
      simp [initialTranscript, hdt, List.find?]

/-- Witness for C8: two default-marked entries with distinct languages —
the first one is loaded. -/
theorem initialTranscript_first_default_witness :
    initialTranscript [⟨"en", "en.vtt", true⟩, ⟨"fr", "fr.vtt", true⟩]
      = some ⟨"en", "en.vtt", true⟩ :=
  (initialTranscript_first_default
    [⟨"en", "en.vtt", true⟩, ⟨"fr", "fr.vtt", true⟩] (by decide)).1
    ⟨"en", "en.vtt", true⟩ (by decide)

/-- `List.contains` on strings agrees with list membership. -/
theorem containsStr_iff (l : List String) (e : String) : l.contains e = true ↔ e ∈ l :=
  List.elem_iff

/-- Scanning a dot-free block of characters just appends it to the
accumulator. -/
theorem foldl_segStep_no_dot (seg : List Char) (hdot : '.' ∉ seg) :
    ∀ acc, seg.foldl segStep acc = acc ++ seg := by
  induction seg with
  | nil => intro acc; simp
  | cons c cs ih =>
    intro acc
    have hc : (c == '.') = false := by
      refine beq_eq_false_iff_ne.mpr fun he => hdot ?_
      rw [he]
      exact List.mem_cons_self _ _
    have hcs : '.' ∉ cs := fun h => hdot (List.mem_cons_of_mem _ h)
    have hstep : segStep acc c = acc ++ [c] := by simp [segStep, hc]
    rw [List.foldl_cons, hstep, ih hcs]
    simp

/-- The segment after the last dot of `stem ++ '.' :: seg` is `seg` when
`seg` itself is dot-free. -/
theorem lastSeg_append_dot (stem seg : List Char) (hdot : '.' ∉ seg) :
    lastSeg (stem ++ '.' :: seg) = seg := by
  have hstep : segStep (stem.foldl segStep []) '.' = [] := by simp [segStep]
  rw [lastSeg, List.foldl_append, List.foldl_cons, hstep, foldl_segStep_no_dot seg hdot []]
  simp

/-- The computed extension of `stem.seg` is the lower-cased `seg`. -/
theorem extOf_append_dot (stem seg : List Char) (hdot : '.' ∉ seg) :
    extOf ⟨stem ++ '.' :: seg⟩ = ⟨seg.map Char.toLower⟩ := by
  simp [extOf, String.toList, lastSeg_append_dot stem seg hdot]

/-- Rebuilding a string from its character list is the identity. -/
theorem mk_toList (s : String) : (⟨s.toList⟩ : String) = s := by
  cases s
  rfl

/-- Every recognized extension is already lower-case and dot-free. -/
theorem recognized_lower_fixed (e : String)
    (h : e ∈ videoExts ∨ e ∈ modelExts ∨ e = "pdf" ∨ e = "ply") :
    e.toList.map Char.toLower = e.toList ∧ ('.' : Char) ∉ e.toList := by
  rcases h with h | h | h | h
  · simp [videoExts] at h
    rcases h with rfl | rfl | rfl | rfl | rfl <;> exact ⟨by decide, by decide⟩
  · simp [modelExts] at h
    rcases h with rfl | rfl | rfl | rfl | rfl <;> exact ⟨by decide, by decide⟩
  · subst h; exact ⟨by decide, by decide⟩
  · subst h; exact ⟨by decide, by decide⟩

/-- A source with a recognized extension cannot be the empty string. -/
theorem recognized_ne_empty (src : String)
    (h : extOf src ∈ videoExts ∨ extOf src ∈ modelExts
      ∨ extOf src = "pdf" ∨ extOf src = "ply") :
    src ≠ "" := by
  intro hs
  rw [hs] at h
  revert h
  decide

/-- A 3D-model extension is not a video extension. -/
theorem model_not_video {e : String} (h : e ∈ modelExts) : e ∉ videoExts := by
  simp [modelExts] at h
  rcases h with rfl | rfl | rfl | rfl | rfl <;> decide

/-- On any source with a recognized extension, `detectType` is determined
by the hostname markers and the extension alone (`classifyExt`): such
inputs are classified before the h5p / iframe branches can matter. -/
theorem detectType_classify (hostname src : String)
    (hrec : extOf src ∈ videoExts ∨ extOf src ∈ modelExts
      ∨ extOf src = "pdf" ∨ extOf src = "ply") :
    detectType hostname src = classifyExt hostname (extOf src) := by
  have hne := recognized_ne_empty src hrec
  have hb : (src == "") = false := beq_eq_false_iff_ne.mpr hne
  rcases hrec with h | h | h | h
  · simp only [videoExts, List.mem_cons, List.mem_singleton, List.not_mem_nil, or_false] at h
    rcases h with h | h | h | h | h <;>
      simp [detectType, classifyExt, hb, h, videoExts, modelExts, List.contains, List.elem]
  · simp only [modelExts, List.mem_cons, List.mem_singleton, List.not_mem_nil, or_false] at h
    rcases h with h | h | h | h | h <;>
      simp [detectType, classifyExt, hb, h, videoExts, modelExts, List.contains, List.elem]
  · simp [detectType, classifyExt, hb, h, videoExts, modelExts, List.contains, List.elem]
  · simp [detectType, classifyExt, hb, h, videoExts, modelExts, List.contains, List.elem]

/-- Counterexample to claim C2: `"h5p"` has no recognized extension, yet
`detectType` returns `"h5p"`, not the claimed iframe fallback. -/
theorem detectType_not_iframe_fallback :
    extOf "h5p" ∉ videoExts ∧ extOf "h5p" ∉ modelExts
    ∧ extOf "h5p" ≠ "pdf" ∧ extOf "h5p" ≠ "ply"
    ∧ detectType "example.org" "h5p" = "h5p"
    ∧ detectType "example.org" "h5p" ≠ "iframe" := by
  decide

/-- Claim C2 (amended): on a resolved hostname free of the video-platform
markers, every source whose lower-cased final dot-segment is a recognized
extension gets the documented type (mp4/webm/ogg/mov/avi to video,
glb/gltf/obj/fbx/3ds to model, pdf to pdf, ply to supersplat); a source
without a recognized extension falls back to iframe only when the h5p
markers also fail, and to h5p when any h5p marker matches; the empty
source is iframe. -/
theorem detectType_classification (hostname src : String)
    (hyt : strIncludes hostname "youtube.com" = false)
    (hvm : strIncludes hostname "vimeo.com" = false) :
    (extOf src ∈ videoExts → detectType hostname src = "video")
    ∧ (extOf src ∈ modelExts → detectType hostname src = "model")
    ∧ (extOf src = "pdf" → detectType hostname src = "pdf")
    ∧ (extOf src = "ply" → detectType hostname src = "supersplat")
    ∧ (src ≠ "" → extOf src ∉ videoExts → extOf src ∉ modelExts →
        extOf src ≠ "pdf" → extOf src ≠ "ply" →
        strIncludes hostname "h5p.org" = false → strIncludes src "/h5p/" = false →
        strIncludes src "h5p" = false → detectType hostname src = "iframe")
    ∧ (src ≠ "" → extOf src ∉ videoExts → extOf src ∉ modelExts →
        extOf src ≠ "pdf" → extOf src ≠ "ply" →
        (strIncludes hostname "h5p.org" || strIncludes src "/h5p/"
          || strIncludes src "h5p") = true →
        detectType hostname src = "h5p")
    ∧ detectType hostname "" = "iframe" := by
  refine ⟨fun h => ?_, fun h => ?_, fun h => ?_, fun h => ?_,
    fun hne h1 h2 h3 h4 hh1 hh2 hh3 => ?_, fun hne h1 h2 h3 h4 hor => ?_, by simp [detectType]⟩
  · rw [detectType_classify hostname src (Or.inl h)]
    simp [classifyExt, hyt, hvm, h]
  · rw [detectType_classify hostname src (Or.inr (Or.inl h))]
    simp [classifyExt, hyt, hvm, h, model_not_video h]
  · rw [detectType_classify hostname src (Or.inr (Or.inr (Or.inl h))), h]
    simp [classifyExt, hyt, hvm, videoExts, modelExts, List.contains, List.elem]
  · rw [detectType_classify hostname src (Or.inr (Or.inr (Or.inr h))), h]
    simp [classifyExt, hyt, hvm, videoExts, modelExts, List.contains, List.elem]
  · have hb : (src == "") = false := beq_eq_false_iff_ne.mpr hne
    have hcv : videoExts.contains (extOf src) = false :=
      Bool.eq_false_iff.mpr fun hc => h1 ((containsStr_iff _ _).mp hc)
    have hcm : modelExts.contains (extOf src) = false :=
      Bool.eq_false_iff.mpr fun hc => h2 ((containsStr_iff _ _).mp hc)
    have hpd : (extOf src == "pdf") = false := beq_eq_false_iff_ne.mpr h3
    have hpl : (extOf src == "ply") = false := beq_eq_false_iff_ne.mpr h4
    simp [detectType, hb, hyt, hvm, hcv, hcm, hpd, hpl, hh1, hh2, hh3, h1, h2]
  · have hb : (src == "") = false := beq_eq_false_iff_ne.mpr hne
    have hcv : videoExts.contains (extOf src) = false :=
      Bool.eq_false_iff.mpr fun hc => h1 ((containsStr_iff _ _).mp hc)
    have hcm : modelExts.contains (extOf src) = false :=
      Bool.eq_false_iff.mpr fun hc => h2 ((containsStr_iff _ _).mp hc)
    have hpd : (extOf src == "pdf") = false := beq_eq_false_iff_ne.mpr h3
    have hpl : (extOf src == "ply") = false := beq_eq_false_iff_ne.mpr h4
    simp [detectType, hb, hyt, hvm, hcv, hcm, hpd, hpl, hor, h1, h2]

/-- Witness for C2: all four documented examples, the h5p exception, and a
plain unrecognized page falling back to iframe. -/
theorem detectType_classification_witness :
    detectType "example.org" "file.mp4" = "video"
    ∧ detectType "example.org" "scene.ply" = "supersplat"
    ∧ detectType "example.org" "doc.pdf" = "pdf"
    ∧ detectType "example.org" "" = "iframe"
    ∧ detectType "example.org" "h5p" = "h5p"
    ∧ detectType "example.org" "page.html" = "iframe" :=
  ⟨(detectType_classification "example.org" "file.mp4" (by decide) (by decide)).1 (by decide),
   (detectType_classification "example.org" "scene.ply" (by decide) (by decide)).2.2.2.1
     (by decide),
   (detectType_classification "example.org" "doc.pdf" (by decide) (by decide)).2.2.1
     (by decide),
   (detectType_classification "example.org" "" (by decide) (by decide)).2.2.2.2.2.2,
   (detectType_classification "example.org" "h5p" (by decide) (by decide)).2.2.2.2.2.1
     (by decide) (by decide) (by decide) (by decide) (by decide) (by decide),
   (detectType_classification "example.org" "page.html" (by decide) (by decide)).2.2.2.2.1
     (by decide) (by decide) (by decide) (by decide) (by decide) (by decide)
     (by decide) (by decide)⟩

/-- Claim C10: `detectType` is case-insensitive in the extension — a
source whose final dot-segment lower-cases to a recognized extension is
classified exactly like the source with that segment replaced by its
lower-case form, because the extension is lower-cased before comparison. -/
theorem detectType_case_insensitive (hostname : String) (stem seg : List Char)
    (hdot : '.' ∉ seg) (e : String) (he : seg.map Char.toLower = e.toList)
    (hrec : e ∈ videoExts ∨ e ∈ modelExts ∨ e = "pdf" ∨ e = "ply") :
    detectType hostname ⟨stem ++ '.' :: seg⟩
      = detectType hostname ⟨stem ++ '.' :: e.toList⟩ := by
  obtain ⟨hfix, hdot'⟩ := recognized_lower_fixed e hrec
  have h1 : extOf ⟨stem ++ '.' :: seg⟩ = e := by
    rw [extOf_append_dot stem seg hdot, he, mk_toList]
  have h2 : extOf ⟨stem ++ '.' :: e.toList⟩ = e := by
    rw [extOf_append_dot stem e.toList hdot', hfix, mk_toList]
  rw [detectType_classify hostname _ (by rw [h1]; exact hrec),
    detectType_classify hostname _ (by rw [h2]; exact hrec), h1, h2]

/-- Witness for C10: upper-casing the `mp4` extension does not change the
detected type. -/
theorem detectType_case_insensitive_witness :
    detectType "example.org" ⟨"FILE".toList ++ '.' :: "MP4".toList⟩
      = detectType "example.org" ⟨"FILE".toList ++ '.' :: "mp4".toList⟩ :=
  detectType_case_insensitive "example.org" "FILE".toList "MP4".toList (by decide)
    "mp4" (by decide) (Or.inl (by decide))

/-- Counterexample to claim C8: with two entries both marked default, the
initial transcript load uses the FIRST default-marked entry (`Array.find`
returns the first match), not the last one the claim names. -/
theorem initialTranscript_not_last_default :
    initialTranscript [⟨"en", "en.vtt", true⟩, ⟨"fr", "fr.vtt", true⟩]
      = some ⟨"en", "en.vtt", true⟩
    ∧ (([⟨"en", "en.vtt", true⟩, ⟨"fr", "fr.vtt", true⟩] : List Transcript).filter
        (fun t => t.default)).getLast? = some ⟨"fr", "fr.vtt", true⟩
    ∧ initialTranscript [⟨"en", "en.vtt", true⟩, ⟨"fr", "fr.vtt", true⟩]
      ≠ (([⟨"en", "en.vtt", true⟩, ⟨"fr", "fr.vtt", true⟩] : List Transcript).filter
        (fun t => t.default)).getLast? := by
  refine ⟨rfl, rfl, ?_⟩
  decide

end LOWrapper
